import Mathlib

/-!
The container launcher of opensearch-testcontainers-go.

A shallow embedding of `src/opensearch.go`.

* Go maps are association lists with an explicit nil map; reading a missing key
  gives the zero value, writing into the nil map panics, deleting from it is a no-op.
* A Go panic is the `Except.error` side of `Except Panic _`.
* A Go result pair `(value, error)` is a Lean pair whose second component is
  `Option Error` (`none` is the nil error).
* The container runtime (`testcontainers.GenericContainer`, and the `Host` and
  `MappedPort` methods of the container it returns) is outside the module: it is a
  parameter of `RunContainer`, respectively a record of functions.
-/

namespace Opensearch

/-! ## Go values -/

/-- A Go run-time panic, with its message. -/
structure Panic where
  msg : String
  deriving DecidableEq, Repr

/-- A Go `error` value that is not nil, with its message. -/
structure Error where
  msg : String
  deriving DecidableEq, Repr

/-- The caller's `context.Context`; the module only passes it on. -/
abbrev Context := Nat

/-- First value bound to `k` in an association list. -/
def lookupEntry (k : String) : List (String × String) → Option String
  | [] => none
  | (k', v) :: rest => if k' = k then some v else lookupEntry k rest

/-- The association list without any binding of `k`. -/
def removeEntry (k : String) : List (String × String) → List (String × String)
  | [] => []
  | (k', v) :: rest => if k' = k then removeEntry k rest else (k', v) :: removeEntry k rest

/-- A Go `map[string]string`: the nil map, or an allocated map with its entries. -/
inductive GoMap where
  | nilMap
  | alloc (kvs : List (String × String))
  deriving DecidableEq, Repr

namespace GoMap

/-- The comma-ok read `v, ok := m[k]`: `none` when the key is not in the map. -/
def get? : GoMap → String → Option String
  | nilMap, _ => none
  | alloc kvs, k => lookupEntry k kvs

/-- The plain read `m[k]`: the zero value `""` when the key is not in the map. -/
def index (m : GoMap) (k : String) : String :=
  match m.get? k with
  | some v => v
  | none => ""

/-- The write `m[k] = v`; it panics on the nil map. -/
def assign : GoMap → String → String → Except Panic GoMap
  | nilMap, _, _ => .error ⟨"assignment to entry in nil map"⟩
  | alloc kvs, k, v => .ok (alloc ((k, v) :: removeEntry k kvs))

/-- The builtin `delete(m, k)`; a no-op on the nil map and on a missing key. -/
def delete : GoMap → String → GoMap
  | nilMap, _ => nilMap
  | alloc kvs, k => alloc (removeEntry k kvs)

/-- Whether the pair `(k, v)` is an entry of the map. -/
def hasEntry : GoMap → String → String → Prop
  | nilMap, _, _ => False
  | alloc kvs, k, v => (k, v) ∈ kvs

end GoMap

/-! ## Constants of `src/opensearch.go` and of the Go standard library -/

def defaultUser : String := "admin"
def defaultPassword : String := "admin"
def defaultHttpPort : String := "9200/tcp"
def defaultTcpPort : String := "9300/tcp"

/-- The environment key read at line 83 and written at lines 31, 48 and 88. -/
abbrev securityKey : String := "DISABLE_SECURITY_PLUGIN"

/-- Go `http.StatusOK`. -/
def StatusOK : Int := 200
/-- Go `http.StatusUnauthorized`. -/
def StatusUnauthorized : Int := 401

/-- Go `time.Duration`: a count of nanoseconds. -/
abbrev Duration := Int
/-- Go `time.Second`. -/
def Second : Duration := 1000000000
/-- Go `time.Minute`. -/
def Minute : Duration := 60 * Second

/-! ## The readiness strategy (`wait.HTTPStrategy`) -/

/-- Modelled from the spec: the type `wait.HTTPStrategy` of the container library is not
part of the sources. Section 3 describes the readiness strategy as a configuration
object with path, port, TLS on/off, basic-auth credentials or none, acceptable status
codes, and one timeout; these are the fields. -/
structure HTTPStrategy where
  Path : String
  Port : String
  UseTLS : Bool
  AllowInsecure : Bool
  UserInfo : Option (String × String)
  StatusCodeMatcher : Int → Bool
  timeout : Option Duration

namespace HTTPStrategy

/-- Modelled from the spec: `wait.NewHTTPStrategy`, absent from the sources. A plain
probe of `path`: no port chosen yet, no TLS, no credentials, success is status 200, no
timeout set. -/
def NewHTTPStrategy (path : String) : HTTPStrategy :=
  { Path := path, Port := "", UseTLS := false, AllowInsecure := false,
    UserInfo := none, StatusCodeMatcher := fun status => status == StatusOK,
    timeout := none }

/-- Modelled from the spec: the setter `WithTLS`, absent from the sources. -/
def WithTLS (ws : HTTPStrategy) (useTLS : Bool) : HTTPStrategy :=
  { ws with UseTLS := useTLS }

/-- Modelled from the spec: the setter `WithAllowInsecure`, absent from the sources. -/
def WithAllowInsecure (ws : HTTPStrategy) (allowInsecure : Bool) : HTTPStrategy :=
  { ws with AllowInsecure := allowInsecure }

/-- Modelled from the spec: the setter `WithPort`, absent from the sources. -/
def WithPort (ws : HTTPStrategy) (port : String) : HTTPStrategy :=
  { ws with Port := port }

/-- Modelled from the spec: the setter `WithBasicAuth`, absent from the sources. -/
def WithBasicAuth (ws : HTTPStrategy) (username password : String) : HTTPStrategy :=
  { ws with UserInfo := some (username, password) }

/-- Modelled from the spec: the setter `WithStatusCodeMatcher`, absent from the
sources. -/
def WithStatusCodeMatcher (ws : HTTPStrategy) (statusCodeMatcher : Int → Bool) :
    HTTPStrategy :=
  { ws with StatusCodeMatcher := statusCodeMatcher }

/-- Modelled from the spec: the setter `WithStartupTimeout`, absent from the sources.
The strategy has one timeout, and section 9 records that in the double call the short
value is overwritten by the long one: the setter replaces the timeout. -/
def WithStartupTimeout (ws : HTTPStrategy) (timeout : Duration) : HTTPStrategy :=
  { ws with timeout := some timeout }

end HTTPStrategy

open HTTPStrategy

/-! ## Requests, customizers and the runtime -/

/-- The fields of `testcontainers.ContainerRequest` that the module sets or reads. -/
structure ContainerRequest where
  Image : String
  Env : GoMap
  ExposedPorts : List String
  WaitingFor : Option HTTPStrategy

/-- The type `testcontainers.GenericContainerRequest`: the embedded request and the
start flag. -/
structure GenericContainerRequest where
  ContainerRequest : ContainerRequest
  Started : Bool

/-- The promoted field `req.Env` of the embedded request. -/
def GenericContainerRequest.Env (req : GenericContainerRequest) : GoMap :=
  req.ContainerRequest.Env

/-- The statement `req.Env = m` on the promoted field. -/
def GenericContainerRequest.setEnv (req : GenericContainerRequest) (m : GoMap) :
    GenericContainerRequest :=
  { req with ContainerRequest := { req.ContainerRequest with Env := m } }

/-- The statement `req.WaitingFor = ws` on the promoted field. -/
def GenericContainerRequest.setWaitingFor (req : GenericContainerRequest)
    (ws : HTTPStrategy) : GenericContainerRequest :=
  { req with ContainerRequest := { req.ContainerRequest with WaitingFor := some ws } }

/-- A `testcontainers.ContainerCustomizer`: `Customize(req)` updates the request in
place and returns nothing; it may panic. -/
abbrev ContainerCustomizer := GenericContainerRequest → Except Panic GenericContainerRequest

/-- A `nat.Port` as seen through its two accessors. -/
structure NatPort where
  Port : String
  Proto : String
  deriving DecidableEq, Repr

/-- The methods of the runtime's `testcontainers.Container` that the module calls. -/
structure RuntimeContainer where
  Host : Context → String × Option Error
  MappedPort : Context → String → NatPort × Option Error

/-- The function `testcontainers.GenericContainer`: the container (nil is `none`) and
the error it returns for a request. -/
abbrev Runtime := Context → GenericContainerRequest → Option RuntimeContainer × Option Error

/-- The type `Container` (lines 21-24): the embedded `testcontainers.Container`, here
the field `embedded`, which is an interface value and may be nil, and the security
flag. -/
structure Container where
  embedded : Option RuntimeContainer
  disableSecurity : Bool

/-! ## The functions of `src/opensearch.go` -/

/-- Lines 64-80. -/
def createWaitStrategyFor (disableSecurity : Bool) : HTTPStrategy :=
  if !disableSecurity then
    ((((((((NewHTTPStrategy "/").WithTLS true).WithAllowInsecure true).WithPort
      defaultHttpPort).WithBasicAuth defaultUser defaultPassword).WithStatusCodeMatcher
      (fun status => status == StatusOK || status == StatusUnauthorized)).WithStartupTimeout
      (10 * Second)).WithStartupTimeout (5 * Minute))
  else
    (((((NewHTTPStrategy "/").WithPort defaultHttpPort).WithStatusCodeMatcher
      (fun status => status == StatusOK)).WithStartupTimeout
      (10 * Second)).WithStartupTimeout (5 * Minute))

/-- Lines 82-84. -/
def isSecurityDisabled (req : GenericContainerRequest) : Bool :=
  req.Env.index "DISABLE_SECURITY_PLUGIN" == "true"

/-- Lines 86-90. -/
def WithSecurityEnabled : ContainerCustomizer := fun req =>
  match req.Env.assign "DISABLE_SECURITY_PLUGIN" "false" with
  | .error p => .error p
  | .ok env => .ok (req.setEnv env)

/-- Lines 28-40 of `RunContainer`: the request before any customization. -/
def defaultRequest : GenericContainerRequest :=
  { ContainerRequest :=
      { Image := "opensearchproject/opensearch:2.5.0",
        Env := .alloc [("DISABLE_SECURITY_PLUGIN", "true"), ("discovery.type", "single-node")],
        ExposedPorts := [defaultHttpPort, defaultTcpPort],
        WaitingFor := none },
    Started := true }

/-- Lines 42-44 of `RunContainer`: the loop over `opts`, starting from `req`. A panic
of a customizer ends the loop. -/
def applyCustomizers : List ContainerCustomizer → GenericContainerRequest →
    Except Panic GenericContainerRequest
  | [], req => .ok req
  | opt :: opts, req =>
    match opt req with
    | .error p => .error p
    | .ok req' => applyCustomizers opts req'

/-- Lines 28-51 of `RunContainer`: the request as it stands when `GenericContainer`
is called at line 53, together with the local `disableSecurity`. -/
def launchRequest (opts : List ContainerCustomizer) :
    Except Panic (GenericContainerRequest × Bool) :=
  match applyCustomizers opts defaultRequest with
  | .error p => .error p
  | .ok genericContainerReq =>
    let disableSecurity := isSecurityDisabled genericContainerReq
    let genericContainerReq :=
      if !disableSecurity then
        genericContainerReq.setEnv (genericContainerReq.Env.delete "DISABLE_SECURITY_PLUGIN")
      else genericContainerReq
    let genericContainerReq :=
      genericContainerReq.setWaitingFor (createWaitStrategyFor disableSecurity)
    .ok (genericContainerReq, disableSecurity)

/-- Lines 27-62. The result is the Go pair `(*Container, error)`; a panic of a
customizer is a panic of `RunContainer`. -/
def RunContainer (GenericContainer : Runtime) (ctx : Context)
    (opts : List ContainerCustomizer) : Except Panic (Option Container × Option Error) :=
  match launchRequest opts with
  | .error p => .error p
  | .ok (genericContainerReq, disableSecurity) =>
    match GenericContainer ctx genericContainerReq with
    | (_, some err) => .ok (none, some err)
    | (container, none) =>
      .ok (some { embedded := container, disableSecurity := disableSecurity }, none)

/-- Lines 92-106. Calling a method of the embedded container when it is nil panics. -/
def Container.GetHttpHostAddress (c : Container) (ctx : Context) :
    Except Panic (String × Option Error) :=
  match c.embedded with
  | none => .error ⟨"invalid memory address or nil pointer dereference"⟩
  | some rc =>
    match rc.Host ctx with
    | (_, some err) => .ok ("", some err)
    | (host, none) =>
      match rc.MappedPort ctx defaultHttpPort with
      | (_, some err) => .ok ("", some err)
      | (port, none) =>
        if c.disableSecurity then
          .ok ("http://" ++ host ++ ":" ++ port.Port, none)
        else
          .ok ("https://" ++ host ++ ":" ++ port.Port, none)

/-- Lines 108-110. -/
def Container.IsSecurityEnabled (c : Container) : Bool :=
  !c.disableSecurity

/-- Lines 112-114. -/
def Container.GetUserName (_c : Container) : String :=
  defaultUser

/-- Lines 116-118. -/
def Container.GetPassword (_c : Container) : String :=
  defaultPassword

/-! ## Inputs and predicates used to state the properties -/

/-- A caller's customizer of the same shape as `WithSecurityEnabled`: it executes
`req.Env[k] = v`. -/
def envCustomizer (k v : String) : ContainerCustomizer := fun req =>
  match req.Env.assign k v with
  | .error p => .error p
  | .ok env => .ok (req.setEnv env)

/-- The customizer leaves the entry of key `k` as it found it (same value, or still
missing) whenever it returns. -/
def PreservesEntry (k : String) (opt : ContainerCustomizer) : Prop :=
  ∀ req req', opt req = .ok req' → req'.Env.get? k = req.Env.get? k

/-- A running container as the runtime reports it: host `localhost`, every port mapped
to `32768`. -/
def sampleContainer : RuntimeContainer :=
  { Host := fun _ => ("localhost", none),
    MappedPort := fun _ _ => (⟨"32768", "tcp"⟩, none) }

/-- A runtime that starts every container it is asked for. -/
def sampleRuntime : Runtime := fun _ _ => (some sampleContainer, none)

/-- A runtime that fails every launch. -/
def failingRuntime : Runtime := fun _ _ => (none, some ⟨"cannot start container"⟩)

/-! ## Lemmas on maps -/

theorem lookupEntry_removeEntry_self (k : String) (kvs : List (String × String)) :
    lookupEntry k (removeEntry k kvs) = none := by
  induction kvs with
  | nil => rfl
  | cons kv rest ih =>
    obtain ⟨k', v⟩ := kv
    by_cases hk : k' = k
    · simp [removeEntry, hk, ih]
    · simp [removeEntry, lookupEntry, hk, ih]

theorem lookupEntry_removeEntry_ne {k k' : String} (h : k' ≠ k)
    (kvs : List (String × String)) :
    lookupEntry k' (removeEntry k kvs) = lookupEntry k' kvs := by
  induction kvs with
  | nil => rfl
  | cons kv rest ih =>
    obtain ⟨k₀, v⟩ := kv
    by_cases hk : k₀ = k
    · subst hk
      have hk' : ¬ k₀ = k' := fun e => h e.symm
      simp [removeEntry, lookupEntry, hk', ih]
    · by_cases hk' : k₀ = k'
      · subst hk'
        simp [removeEntry, lookupEntry, hk]
      · simp [removeEntry, lookupEntry, hk, hk', ih]

theorem mem_removeEntry_iff (k k' v : String) (kvs : List (String × String)) :
    (k', v) ∈ removeEntry k kvs ↔ (k', v) ∈ kvs ∧ k' ≠ k := by
  induction kvs with
  | nil => simp [removeEntry]
  | cons kv rest ih =>
    obtain ⟨k₀, v₀⟩ := kv
    by_cases hk : k₀ = k
    · simp only [removeEntry, hk, if_true, ih, List.mem_cons, Prod.mk.injEq]
      constructor
      · rintro ⟨h1, h2⟩
        exact ⟨Or.inr h1, h2⟩
      · rintro ⟨h1 | h1, h2⟩
        · exact absurd h1.1 h2
        · exact ⟨h1, h2⟩
    · simp only [removeEntry, hk, if_false, List.mem_cons, ih, Prod.mk.injEq]
      constructor
      · rintro (⟨h1, h2⟩ | ⟨h1, h2⟩)
        · exact ⟨Or.inl ⟨h1, h2⟩, fun e => hk (h1 ▸ e)⟩
        · exact ⟨Or.inr h1, h2⟩
      · rintro ⟨⟨h1, h2⟩ | h1, h3⟩
        · exact Or.inl ⟨h1, h2⟩
        · exact Or.inr ⟨h1, h3⟩

theorem GoMap.get?_delete_self (m : GoMap) (k : String) : (m.delete k).get? k = none := by
  cases m with
  | nilMap => rfl
  | alloc kvs => exact lookupEntry_removeEntry_self k kvs

theorem GoMap.get?_delete_ne (m : GoMap) {k k' : String} (h : k' ≠ k) :
    (m.delete k).get? k' = m.get? k' := by
  cases m with
  | nilMap => rfl
  | alloc kvs => exact lookupEntry_removeEntry_ne h kvs

theorem GoMap.not_hasEntry_delete (m : GoMap) (k v : String) : ¬ (m.delete k).hasEntry k v := by
  cases m with
  | nilMap => exact fun h => h
  | alloc kvs =>
    intro h
    exact ((mem_removeEntry_iff k k v kvs).1 h).2 rfl

theorem GoMap.hasEntry_delete_ne (m : GoMap) {k k' : String} (h : k' ≠ k) (v : String) :
    (m.delete k).hasEntry k' v ↔ m.hasEntry k' v := by
  cases m with
  | nilMap => exact Iff.rfl
  | alloc kvs =>
    constructor
    · intro hm
      exact ((mem_removeEntry_iff k k' v kvs).1 hm).1
    · intro hm
      exact (mem_removeEntry_iff k k' v kvs).2 ⟨hm, h⟩

theorem GoMap.get?_of_assign {m m' : GoMap} {k v : String} (h : m.assign k v = .ok m') :
    m'.get? k = some v := by
  cases m with
  | nilMap => simp [GoMap.assign] at h
  | alloc kvs =>
    simp only [GoMap.assign, Except.ok.injEq] at h
    subst h
    simp [GoMap.get?, lookupEntry]

theorem GoMap.get?_of_assign_ne {m m' : GoMap} {k k' v : String} (hk : k' ≠ k)
    (h : m.assign k v = .ok m') : m'.get? k' = m.get? k' := by
  cases m with
  | nilMap => simp [GoMap.assign] at h
  | alloc kvs =>
    simp only [GoMap.assign, Except.ok.injEq] at h
    subst h
    have hk' : ¬ k = k' := fun e => hk e.symm
    simp [GoMap.get?, lookupEntry, hk', lookupEntry_removeEntry_ne hk]

theorem GoMap.index_eq_iff_of_ne_empty (m : GoMap) (k v : String) (hv : v ≠ "") :
    m.index k = v ↔ m.get? k = some v := by
  unfold GoMap.index
  cases hg : m.get? k with
  | none =>
    simp only [reduceCtorEq, iff_false]
    exact fun e => hv e.symm
  | some w => simp

/-! ## Lemmas on the launcher -/

theorem isSecurityDisabled_eq_true_iff (req : GenericContainerRequest) :
    isSecurityDisabled req = true ↔ req.Env.get? securityKey = some "true" := by
  unfold isSecurityDisabled
  rw [beq_iff_eq]
  exact GoMap.index_eq_iff_of_ne_empty req.Env securityKey "true" (by decide)

theorem applyCustomizers_cons_ok {opt : ContainerCustomizer} {opts : List ContainerCustomizer}
    {req req' : GenericContainerRequest} (h : applyCustomizers (opt :: opts) req = .ok req') :
    ∃ mid, opt req = .ok mid ∧ applyCustomizers opts mid = .ok req' := by
  unfold applyCustomizers at h
  cases ho : opt req with
  | error p => simp [ho] at h
  | ok mid =>
    rw [ho] at h
    exact ⟨mid, rfl, h⟩

theorem applyCustomizers_append_ok {xs ys : List ContainerCustomizer}
    {req req' : GenericContainerRequest} (h : applyCustomizers (xs ++ ys) req = .ok req') :
    ∃ mid, applyCustomizers xs req = .ok mid ∧ applyCustomizers ys mid = .ok req' := by
  induction xs generalizing req with
  | nil => exact ⟨req, rfl, h⟩
  | cons x xs ih =>
    obtain ⟨r₁, hx, hrest⟩ := applyCustomizers_cons_ok h
    obtain ⟨mid, h₁, h₂⟩ := ih hrest
    refine ⟨mid, ?_, h₂⟩
    unfold applyCustomizers
    rw [hx]
    exact h₁

theorem applyCustomizers_preserves {k : String} {opts : List ContainerCustomizer}
    (hopts : ∀ o ∈ opts, PreservesEntry k o) {req req' : GenericContainerRequest}
    (h : applyCustomizers opts req = .ok req') : req'.Env.get? k = req.Env.get? k := by
  induction opts generalizing req with
  | nil =>
    simp only [applyCustomizers, Except.ok.injEq] at h
    rw [h]
  | cons o opts ih =>
    obtain ⟨mid, ho, hrest⟩ := applyCustomizers_cons_ok h
    rw [ih (fun o' ho' => hopts o' (List.mem_cons_of_mem _ ho')) hrest]
    exact hopts o (List.mem_cons_self _ _) req mid ho

theorem envCustomizer_get? {k v : String} {req req' : GenericContainerRequest}
    (h : envCustomizer k v req = .ok req') : req'.Env.get? k = some v := by
  unfold envCustomizer at h
  cases ha : req.Env.assign k v with
  | error p => simp [ha] at h
  | ok env =>
    simp only [ha, Except.ok.injEq] at h
    subst h
    exact GoMap.get?_of_assign ha

theorem withSecurityEnabled_eq : WithSecurityEnabled = envCustomizer securityKey "false" := rfl

theorem launchRequest_ok {opts : List ContainerCustomizer} {req : GenericContainerRequest}
    {ds : Bool} (h : launchRequest opts = .ok (req, ds)) :
    ∃ custom, applyCustomizers opts defaultRequest = .ok custom ∧
      ds = isSecurityDisabled custom ∧
      req = ((if !ds then custom.setEnv (custom.Env.delete securityKey) else custom).setWaitingFor
        (createWaitStrategyFor ds)) := by
  unfold launchRequest at h
  cases ha : applyCustomizers opts defaultRequest with
  | error p => simp [ha] at h
  | ok custom =>
    simp only [ha, Except.ok.injEq, Prod.mk.injEq] at h
    obtain ⟨h₁, h₂⟩ := h
    subst h₂
    exact ⟨custom, rfl, rfl, h₁.symm⟩

theorem runContainer_of_launchRequest {opts : List ContainerCustomizer}
    {req : GenericContainerRequest} {ds : Bool} (h : launchRequest opts = .ok (req, ds))
    (rt : Runtime) (ctx : Context) :
    RunContainer rt ctx opts =
      match rt ctx req with
      | (_, some err) => .ok (none, some err)
      | (container, none) => .ok (some { embedded := container, disableSecurity := ds }, none) := by
  unfold RunContainer
  rw [h]

theorem runContainer_ok {rt : Runtime} {ctx : Context} {opts : List ContainerCustomizer}
    {c : Container} (h : RunContainer rt ctx opts = .ok (some c, none)) :
    ∃ req, launchRequest opts = .ok (req, c.disableSecurity) := by
  cases hl : launchRequest opts with
  | error p => simp [RunContainer, hl] at h
  | ok rd =>
    obtain ⟨req, ds⟩ := rd
    rw [runContainer_of_launchRequest hl] at h
    rcases hr : rt ctx req with ⟨container, _ | err⟩
    · simp only [hr, Except.ok.injEq, Prod.mk.injEq, Option.some.injEq, and_true] at h
      subst h
      exact ⟨req, rfl⟩
    · simp [hr] at h

theorem getHttpHostAddress_ok {c : Container} {ctx : Context} {url : String}
    (h : c.GetHttpHostAddress ctx = .ok (url, none)) :
    ∃ rest, url = (if c.disableSecurity then "http://" else "https://") ++ rest := by
  unfold Container.GetHttpHostAddress at h
  cases hc : c.embedded with
  | none => simp [hc] at h
  | some rc =>
    simp only [hc] at h
    rcases hh : rc.Host ctx with ⟨host, _ | err⟩
    · simp only [hh] at h
      rcases hp : rc.MappedPort ctx defaultHttpPort with ⟨port, _ | err⟩
      · simp only [hp] at h
        cases hd : c.disableSecurity with
        | true =>
          simp only [hd, if_true, Except.ok.injEq, Prod.mk.injEq, and_true] at h
          exact ⟨host ++ ":" ++ port.Port, by rw [← h]; simp [String.append_assoc]⟩
        | false =>
          simp only [hd, Bool.false_eq_true, if_false, Except.ok.injEq, Prod.mk.injEq,
            and_true] at h
          exact ⟨host ++ ":" ++ port.Port, by rw [← h]; simp [String.append_assoc]⟩
      · simp [hp] at h
    · simp [hh] at h

theorem applyCustomizers_enabled_stays {opts : List ContainerCustomizer}
    (hopts : ∀ o ∈ opts, o = WithSecurityEnabled ∨ PreservesEntry securityKey o)
    {req req' : GenericContainerRequest} (hreq : req.Env.get? securityKey = some "false")
    (h : applyCustomizers opts req = .ok req') : req'.Env.get? securityKey = some "false" := by
  induction opts generalizing req with
  | nil =>
    simp only [applyCustomizers, Except.ok.injEq] at h
    rw [← h]
    exact hreq
  | cons o opts ih =>
    obtain ⟨mid, ho, hrest⟩ := applyCustomizers_cons_ok h
    refine ih (fun o' ho' => hopts o' (List.mem_cons_of_mem _ ho')) ?_ hrest
    rcases hopts o (List.mem_cons_self _ _) with he | hp
    · subst he
      exact envCustomizer_get? ho
    · rw [hp req mid ho]
      exact hreq

theorem applyCustomizers_enabled {opts : List ContainerCustomizer}
    (hmem : WithSecurityEnabled ∈ opts)
    (hopts : ∀ o ∈ opts, o = WithSecurityEnabled ∨ PreservesEntry securityKey o)
    {req req' : GenericContainerRequest}
    (h : applyCustomizers opts req = .ok req') : req'.Env.get? securityKey = some "false" := by
  induction opts generalizing req with
  | nil => simp at hmem
  | cons o opts ih =>
    obtain ⟨mid, ho, hrest⟩ := applyCustomizers_cons_ok h
    have hopts' : ∀ o' ∈ opts, o' = WithSecurityEnabled ∨ PreservesEntry securityKey o' :=
      fun o' ho' => hopts o' (List.mem_cons_of_mem _ ho')
    rcases List.mem_cons.1 hmem with he | hin
    · subst he
      exact applyCustomizers_enabled_stays hopts' (envCustomizer_get? ho) hrest
    · exact ih hin hopts' hrest

/-! ## The properties -/

/-- C1: `isSecurityDisabled` returns true exactly when the request environment maps
`DISABLE_SECURITY_PLUGIN` to the string `"true"`, and false in every other case (key
missing, nil map, any other value); a handle built from its result then reports
security as enabled exactly in those other cases. -/
theorem isSecurityDisabled_spec (req : GenericContainerRequest) :
    (isSecurityDisabled req = true ↔ req.Env.get? securityKey = some "true") ∧
    (isSecurityDisabled req = false ↔ req.Env.get? securityKey ≠ some "true") ∧
    (∀ rc, Container.IsSecurityEnabled ⟨rc, isSecurityDisabled req⟩ = true ↔
      req.Env.get? securityKey ≠ some "true") := by
  have h := isSecurityDisabled_eq_true_iff req
  have h' : isSecurityDisabled req = false ↔ req.Env.get? securityKey ≠ some "true" := by
    rw [Ne, ← h]
    cases isSecurityDisabled req <;> simp
  refine ⟨h, h', fun rc => ?_⟩
  rw [← h']
  cases hd : isSecurityDisabled req <;> simp [Container.IsSecurityEnabled]

/-- C2: when the resolved mode is enabled (`disableSecurity` is false), the environment
of the request passed to `GenericContainer` has no entry at all for
`DISABLE_SECURITY_PLUGIN`, and for every other key it has exactly the entries the
customizations produced. The request `req` is the one the runtime is called with:
`RunContainer` is unchanged when the runtime is replaced by its answer at `req`. -/
theorem launchRequest_env_enabled (opts : List ContainerCustomizer)
    (custom req : GenericContainerRequest)
    (hcustom : applyCustomizers opts defaultRequest = .ok custom)
    (hlaunch : launchRequest opts = .ok (req, false)) :
    req.Env.get? securityKey = none ∧
    (∀ v, ¬ req.Env.hasEntry securityKey v) ∧
    (∀ k, k ≠ securityKey → req.Env.get? k = custom.Env.get? k) ∧
    (∀ k v, k ≠ securityKey → (req.Env.hasEntry k v ↔ custom.Env.hasEntry k v)) ∧
    (∀ (rt : Runtime) (ctx : Context),
      RunContainer rt ctx opts = RunContainer (fun _ _ => rt ctx req) ctx opts) := by
  obtain ⟨custom', hc', _, hreq⟩ := launchRequest_ok hlaunch
  rw [hcustom] at hc'
  simp only [Except.ok.injEq] at hc'
  subst hc'
  have henv : req.Env = custom.Env.delete securityKey := by
    rw [hreq]
    rfl
  rw [henv]
  refine ⟨GoMap.get?_delete_self _ _, fun v => GoMap.not_hasEntry_delete _ _ v,
    fun k hk => GoMap.get?_delete_ne _ hk, fun k v hk => GoMap.hasEntry_delete_ne _ hk v, ?_⟩
  intro rt ctx
  rw [runContainer_of_launchRequest hlaunch, runContainer_of_launchRequest hlaunch]

/-- Witness of C2 at the single customization `WithSecurityEnabled`: the runtime gets
no `DISABLE_SECURITY_PLUGIN` entry, and the `discovery.type` entry as it was. -/
theorem launchRequest_env_enabled_witness :
    GoMap.get? (.alloc [("discovery.type", "single-node")]) securityKey = none ∧
    GoMap.get? (.alloc [("discovery.type", "single-node")]) "discovery.type" =
      GoMap.get? (.alloc [("DISABLE_SECURITY_PLUGIN", "false"),
        ("discovery.type", "single-node")]) "discovery.type" :=
  have h := launchRequest_env_enabled [WithSecurityEnabled]
    (defaultRequest.setEnv (.alloc [("DISABLE_SECURITY_PLUGIN", "false"),
      ("discovery.type", "single-node")]))
    ((defaultRequest.setEnv (.alloc [("discovery.type", "single-node")])).setWaitingFor
      (createWaitStrategyFor false)) rfl rfl
  ⟨h.1, h.2.2.1 "discovery.type" (by decide)⟩

/-- C3: if no customization modifies the `DISABLE_SECURITY_PLUGIN` entry (the empty
sequence included) and `RunContainer` returns a handle with a nil error, then the
handle reports security as not enabled, and every address `GetHttpHostAddress` returns
with a nil error starts with `http://`. -/
theorem runContainer_default_mode (rt : Runtime) (ctx : Context)
    (opts : List ContainerCustomizer)
    (hopts : ∀ o ∈ opts, PreservesEntry securityKey o) (c : Container)
    (hrun : RunContainer rt ctx opts = .ok (some c, none)) :
    c.IsSecurityEnabled = false ∧
    ∀ ctx' url, c.GetHttpHostAddress ctx' = .ok (url, none) → ∃ rest, url = "http://" ++ rest := by
  obtain ⟨req, hl⟩ := runContainer_ok hrun
  obtain ⟨custom, hc, hds, _⟩ := launchRequest_ok hl
  have hget : custom.Env.get? securityKey = some "true" := by
    rw [applyCustomizers_preserves hopts hc]
    rfl
  have hd : c.disableSecurity = true := by
    rw [hds]
    exact (isSecurityDisabled_eq_true_iff custom).2 hget
  refine ⟨by simp [Container.IsSecurityEnabled, hd], fun ctx' url hurl => ?_⟩
  obtain ⟨rest, hrest⟩ := getHttpHostAddress_ok hurl
  rw [hd] at hrest
  exact ⟨rest, hrest⟩

/-- Witness of C3 at the empty sequence, as in `TestOpensearch`. -/
theorem runContainer_default_mode_witness :
    Container.IsSecurityEnabled ⟨some sampleContainer, true⟩ = false ∧
    ∃ rest, "http://localhost:32768" = "http://" ++ rest :=
  have h := runContainer_default_mode sampleRuntime 0 []
    (fun _ ho => absurd ho (List.not_mem_nil _)) ⟨some sampleContainer, true⟩ rfl
  ⟨h.1, h.2 0 "http://localhost:32768" rfl⟩

/-- C4: if the sequence contains `WithSecurityEnabled()` and every other customization
leaves the `DISABLE_SECURITY_PLUGIN` entry as it found it, and `RunContainer` returns a
handle with a nil error, then `IsSecurityEnabled()` is true and every address
`GetHttpHostAddress` returns with a nil error starts with `https://`. -/
theorem runContainer_enabled_mode (rt : Runtime) (ctx : Context)
    (opts : List ContainerCustomizer) (hmem : WithSecurityEnabled ∈ opts)
    (hopts : ∀ o ∈ opts, o = WithSecurityEnabled ∨ PreservesEntry securityKey o)
    (c : Container) (hrun : RunContainer rt ctx opts = .ok (some c, none)) :
    c.IsSecurityEnabled = true ∧
    ∀ ctx' url, c.GetHttpHostAddress ctx' = .ok (url, none) →
      ∃ rest, url = "https://" ++ rest := by
  obtain ⟨req, hl⟩ := runContainer_ok hrun
  obtain ⟨custom, hc, hds, _⟩ := launchRequest_ok hl
  have hget := applyCustomizers_enabled hmem hopts hc
  have hd : c.disableSecurity = false := by
    rw [hds]
    cases hb : isSecurityDisabled custom with
    | false => rfl
    | true =>
      rw [(isSecurityDisabled_eq_true_iff custom).1 hb] at hget
      exact absurd hget (by decide)
  refine ⟨by simp [Container.IsSecurityEnabled, hd], fun ctx' url hurl => ?_⟩
  obtain ⟨rest, hrest⟩ := getHttpHostAddress_ok hurl
  rw [hd] at hrest
  exact ⟨rest, hrest⟩

/-- Witness of C4 at the single customization `WithSecurityEnabled`, as in
`TestOpensearch_WithSecurityEnabled`. -/
theorem runContainer_enabled_mode_witness :
    Container.IsSecurityEnabled ⟨some sampleContainer, false⟩ = true ∧
    ∃ rest, "https://localhost:32768" = "https://" ++ rest :=
  have h := runContainer_enabled_mode sampleRuntime 0 [WithSecurityEnabled]
    (List.mem_singleton.2 rfl) (fun _ ho => Or.inl (List.mem_singleton.1 ho))
    ⟨some sampleContainer, false⟩ rfl
  ⟨h.1, h.2 0 "https://localhost:32768" rfl⟩

/-- C5: the status-code matcher of the strategy `createWaitStrategyFor` returns accepts,
with security disabled, exactly the status 200, and with security enabled exactly the
statuses 200 and 401. -/
theorem createWaitStrategyFor_matcher (s : Int) :
    ((createWaitStrategyFor true).StatusCodeMatcher s = true ↔ s = 200) ∧
    ((createWaitStrategyFor false).StatusCodeMatcher s = true ↔ s = 200 ∨ s = 401) := by
  constructor
  · show (s == StatusOK) = true ↔ s = 200
    simp [StatusOK]
  · show (s == StatusOK || s == StatusUnauthorized) = true ↔ s = 200 ∨ s = 401
    simp [StatusOK, StatusUnauthorized]

/-- C6: for a handle over a runtime container `rc`, `GetHttpHostAddress` returns the
empty string and the error of the host lookup when that lookup fails; otherwise the
empty string and the error of the lookup of port `9200/tcp` when that one fails;
otherwise, with a nil error, scheme, `://`, host, `:` and port, the scheme being `http`
when the handle has security disabled and `https` when it has it enabled. -/
theorem getHttpHostAddress_spec (rc : RuntimeContainer) (disableSecurity : Bool)
    (ctx : Context) :
    (∀ host err, rc.Host ctx = (host, some err) →
      Container.GetHttpHostAddress ⟨some rc, disableSecurity⟩ ctx = .ok ("", some err)) ∧
    (∀ host port err, rc.Host ctx = (host, none) →
      rc.MappedPort ctx "9200/tcp" = (port, some err) →
      Container.GetHttpHostAddress ⟨some rc, disableSecurity⟩ ctx = .ok ("", some err)) ∧
    (∀ host port, rc.Host ctx = (host, none) →
      rc.MappedPort ctx "9200/tcp" = (port, none) →
      Container.GetHttpHostAddress ⟨some rc, disableSecurity⟩ ctx =
        .ok ((if disableSecurity then "http" else "https") ++ "://" ++ host ++ ":" ++
          port.Port, none)) := by
  refine ⟨fun host err hh => ?_, fun host port err hh hp => ?_, fun host port hh hp => ?_⟩
  · simp only [Container.GetHttpHostAddress, hh]
  · simp only [Container.GetHttpHostAddress, hh, defaultHttpPort, hp]
  · cases disableSecurity <;>
      simp only [Container.GetHttpHostAddress, hh, defaultHttpPort, hp, if_true,
        Bool.false_eq_true, if_false] <;> rfl

/-- Witness of C6: both lookups succeed on a handle with security enabled. -/
theorem getHttpHostAddress_spec_witness :
    Container.GetHttpHostAddress ⟨some sampleContainer, false⟩ 0 =
      .ok ("https://localhost:32768", none) :=
  (getHttpHostAddress_spec sampleContainer false 0).2.2 "localhost" ⟨"32768", "tcp"⟩ rfl rfl

/-- C7: once the customizations have run and `req` is the request of the launch,
`RunContainer` returns; it returns an error exactly when `GenericContainer` returns one
for `req`, then that same error and a nil handle; otherwise a nil error and the handle
made of the runtime container and of the security flag computed, before the launch,
from the customized request. -/
theorem runContainer_result (opts : List ContainerCustomizer) (req : GenericContainerRequest)
    (ds : Bool) (hlaunch : launchRequest opts = .ok (req, ds)) (rt : Runtime) (ctx : Context) :
    (∀ container err, rt ctx req = (container, some err) →
      RunContainer rt ctx opts = .ok (none, some err)) ∧
    (∀ container, rt ctx req = (container, none) →
      RunContainer rt ctx opts =
        .ok (some { embedded := container, disableSecurity := ds }, none)) ∧
    (∃ handle err, RunContainer rt ctx opts = .ok (handle, err) ∧ err = (rt ctx req).2 ∧
      (handle = none ↔ err ≠ none)) ∧
    (∃ custom, applyCustomizers opts defaultRequest = .ok custom ∧
      ds = isSecurityDisabled custom) := by
  have hrun := runContainer_of_launchRequest hlaunch rt ctx
  refine ⟨fun container err hr => ?_, fun container hr => ?_, ?_, ?_⟩
  · rw [hrun, hr]
  · rw [hrun, hr]
  · rcases hr : rt ctx req with ⟨container, _ | err⟩
    · rw [hr] at hrun
      exact ⟨_, _, hrun, rfl, by simp⟩
    · rw [hr] at hrun
      exact ⟨_, _, hrun, rfl, by simp⟩
  · obtain ⟨custom, hc, hds, _⟩ := launchRequest_ok hlaunch
    exact ⟨custom, hc, hds⟩

/-- Witness of C7: a runtime that fails, launched without customizations. -/
theorem runContainer_result_witness :
    RunContainer failingRuntime 0 [] = .ok (none, some ⟨"cannot start container"⟩) :=
  (runContainer_result [] (defaultRequest.setWaitingFor (createWaitStrategyFor true)) true rfl
    failingRuntime 0).1 none ⟨"cannot start container"⟩ rfl

/-- C8, as the claim states it, fails: with a customization writing
`DISABLE_SECURITY_PLUGIN = "true"` followed by `WithSecurityEnabled()`, which writes
`"false"` to the same key, the later value decides the mode (enabled) but does not reach
the runtime: the request of the launch has no entry for the key. -/
theorem later_value_removed_before_launch :
    (launchRequest [envCustomizer securityKey "true", WithSecurityEnabled]).map
        (fun p => (p.1.Env.get? securityKey, p.2)) = .ok (none, false) ∧
    (none : Option String) ≠ some "false" :=
  ⟨rfl, by decide⟩

/-- C8, amended: the customizations are applied to the request in the order given, as a
left fold; of two customizations writing the same key, followed only by customizations
that leave that entry alone, the value of the later one is the one the security-mode
check reads, and it is the one the runtime gets unless the key is
`DISABLE_SECURITY_PLUGIN` and the value is not `"true"`; writing `"true"` after
`WithSecurityEnabled()` gives the disabled mode, and the opposite order the enabled
mode. -/
theorem customizers_applied_in_order :
    (∀ (opts : List ContainerCustomizer) (req : GenericContainerRequest),
      applyCustomizers opts req = List.foldlM (fun r (o : ContainerCustomizer) => o r) req opts) ∧
    (∀ (pre mid post : List ContainerCustomizer) (k v₁ v₂ : String)
      (req : GenericContainerRequest) (ds : Bool),
      (∀ o ∈ post, PreservesEntry k o) →
      launchRequest (pre ++ [envCustomizer k v₁] ++ mid ++ [envCustomizer k v₂] ++ post) =
        .ok (req, ds) →
      ∃ custom,
        applyCustomizers (pre ++ [envCustomizer k v₁] ++ mid ++ [envCustomizer k v₂] ++ post)
          defaultRequest = .ok custom ∧
        custom.Env.get? k = some v₂ ∧
        ds = isSecurityDisabled custom ∧
        ((k ≠ securityKey ∨ v₂ = "true") → req.Env.get? k = some v₂)) ∧
    (launchRequest [WithSecurityEnabled, envCustomizer securityKey "true"]).map Prod.snd =
      .ok true ∧
    (launchRequest [envCustomizer securityKey "true", WithSecurityEnabled]).map Prod.snd =
      .ok false := by
  refine ⟨fun opts => ?_, ?_, rfl, rfl⟩
  · induction opts with
    | nil => intro req; rfl
    | cons o opts ih =>
      intro req
      rw [List.foldlM_cons]
      unfold applyCustomizers
      cases ho : o req with
      | error p => rfl
      | ok mid => exact ih mid
  · intro pre mid post k v₁ v₂ req ds hpost hlaunch
    obtain ⟨custom, hc, hds, hreq⟩ := launchRequest_ok hlaunch
    obtain ⟨r₁, h₁, h₂⟩ := applyCustomizers_append_ok hc
    obtain ⟨r₀, _, h₀⟩ := applyCustomizers_append_ok h₁
    obtain ⟨r₁', hw, hnil⟩ := applyCustomizers_cons_ok h₀
    simp only [applyCustomizers, Except.ok.injEq] at hnil
    subst hnil
    have hget : custom.Env.get? k = some v₂ := by
      rw [applyCustomizers_preserves hpost h₂]
      exact envCustomizer_get? hw
    refine ⟨custom, hc, hget, hds, fun hk => ?_⟩
    cases hb : ds with
    | true =>
      rw [hreq, hb]
      exact hget
    | false =>
      have henv : req.Env = custom.Env.delete securityKey := by
        rw [hreq, hb]
        rfl
      have hne : k ≠ securityKey := by
        rcases hk with hk | hv
        · exact hk
        · intro hkey
          subst hkey
          subst hv
          rw [hb] at hds
          rw [(isSecurityDisabled_eq_true_iff custom).2 hget] at hds
          exact absurd hds (by decide)
      rw [henv, GoMap.get?_delete_ne _ hne]
      exact hget

/-- Witness of the amended C8: `discovery.type` written twice, the later value reaches
the runtime. -/
theorem customizers_applied_in_order_witness :
    GoMap.get? (.alloc [("discovery.type", "b"), ("DISABLE_SECURITY_PLUGIN", "true")])
      "discovery.type" = some "b" :=
  match customizers_applied_in_order.2.1 [] [] [] "discovery.type" "a" "b"
      ((defaultRequest.setEnv (.alloc [("discovery.type", "b"),
        ("DISABLE_SECURITY_PLUGIN", "true")])).setWaitingFor (createWaitStrategyFor true)) true
      (fun _ ho => absurd ho (List.not_mem_nil _)) rfl with
  | ⟨_, _, _, _, h⟩ => h (Or.inl (by decide))

/-- C9: whatever the handle, `GetUserName()` and `GetPassword()` return `"admin"`, and
this is the basic-auth pair of the readiness probe `createWaitStrategyFor` builds when
security is enabled. -/
theorem credentials_fixed (c : Container) :
    c.GetUserName = "admin" ∧ c.GetPassword = "admin" ∧
    (createWaitStrategyFor false).UserInfo = some (c.GetUserName, c.GetPassword) :=
  ⟨rfl, rfl, rfl⟩

/-- C10, as the claim states it, fails: in both modes the strategy
`createWaitStrategyFor` returns is equal to the one built with the 5-minute timeout
only, so the 10-second value is not retained. -/
theorem startup_timeout_short_value_lost :
    createWaitStrategyFor false =
      (((((((NewHTTPStrategy "/").WithTLS true).WithAllowInsecure true).WithPort
        defaultHttpPort).WithBasicAuth defaultUser defaultPassword).WithStatusCodeMatcher
        (fun status => status == StatusOK || status == StatusUnauthorized)).WithStartupTimeout
        (5 * Minute)) ∧
    createWaitStrategyFor true =
      ((((NewHTTPStrategy "/").WithPort defaultHttpPort).WithStatusCodeMatcher
        (fun status => status == StatusOK)).WithStartupTimeout (5 * Minute)) :=
  ⟨rfl, rfl⟩

/-- C10, amended: in both modes the strategy `createWaitStrategyFor` returns has one
startup timeout, 5 minutes (300000000000 ns); the 10-second value set first is
overwritten, as any earlier timeout is by a later `WithStartupTimeout`. -/
theorem startup_timeout_single (disableSecurity : Bool) :
    (createWaitStrategyFor disableSecurity).timeout = some (5 * Minute) ∧
    (createWaitStrategyFor disableSecurity).timeout = some 300000000000 ∧
    (createWaitStrategyFor disableSecurity).timeout ≠ some (10 * Second) ∧
    (∀ (ws : HTTPStrategy) (d₁ d₂ : Duration),
      (ws.WithStartupTimeout d₁).WithStartupTimeout d₂ = ws.WithStartupTimeout d₂) := by
  refine ⟨?_, ?_, ?_, fun ws d₁ d₂ => rfl⟩
  · cases disableSecurity <;> rfl
  · cases disableSecurity <;> decide
  · cases disableSecurity <;> decide

end Opensearch
